import Mathlib

/-!
Shallow embedding of the stratum proxy (src/index.js) and verification of the
frozen claims. The source file contains two concatenated implementation
variants of the proxy (separated by a document separator); we embed both as
`...V1` (first variant, lines 1-429) and `...V2` (second variant, lines
430-802). Socket writes are modelled as an ordered list of outbound frames,
the backend node RPC as an explicit `Backend` record of call outcomes, and
each stratum handler as a pure function from session/job state and an inbound
message to a `HandlerResult`.
-/

namespace StratumProxy

/-- Internal algorithm tags, the values of the `ALGORITHMS` map in the source. -/
inductive Algo where
  | progpow
  | sha256d
  | randomx
  deriving DecidableEq, Repr

/-- The `ALGORITHMS` lookup table: subscription name to internal algorithm tag.
An absent key yields `none` (JS `undefined`). -/
def ALGORITHMS : String → Option Algo
  | "progpow-veil" => some .progpow
  | "sha256d" => some .sha256d
  | "randomx-veil" => some .randomx
  | _ => none

def EXTRA_NONCE_BYTES : Nat := 4

/-- JS string interpolation of the algorithm tag (used in job ids and logs);
a `none` interpolates as the string "null". -/
def algoNameOpt : Option Algo → String
  | some .progpow => "progpow"
  | some .sha256d => "sha256d"
  | some .randomx => "randomx"
  | none => "null"

/-- The `getDifficultyForAlgo` switch; `none` falls to the default branch.
The JS decimal literals 0.002, 0.01, 0.005 are modelled as exact rationals
written with `mkRat` so that the kernel can evaluate them. -/
def getDifficultyForAlgo : Option Algo → ℚ
  | some .progpow => mkRat 2 1000
  | some .sha256d => mkRat 1 100
  | some .randomx => mkRat 5 1000
  | none => mkRat 1 100

/-! ### Decimal rendering of the job counter

The source renders the counter into the job id with JS template interpolation
(decimal digits). We model that with a fuel-based digit renderer (kernel
reducible, unlike well-founded recursion) and prove the decimal value can be
read back, which gives injectivity of rendered counters. -/

/-- Render the decimal digits of `n` in front of `acc`; `fuel` bounds the
recursion depth (any `fuel` with `n < 10 ^ fuel` yields all digits). -/
def natDigitsGo : Nat → Nat → List Char → List Char
  | 0, _, acc => acc
  | fuel + 1, n, acc =>
    if n < 10 then Nat.digitChar n :: acc
    else natDigitsGo fuel (n / 10) (Nat.digitChar (n % 10) :: acc)

/-- Decimal string of a natural number, as JS template interpolation renders it. -/
def natToString (n : Nat) : String := String.mk (natDigitsGo (n + 1) n [])

/-- Read a digit list back to its decimal value. -/
def digitsVal (l : List Char) : Nat :=
  l.foldl (fun acc ch => 10 * acc + (ch.toNat - 48)) 0

theorem natDigitsGo_append (fuel : Nat) :
    ∀ (n : Nat) (acc : List Char),
      natDigitsGo fuel n acc = natDigitsGo fuel n [] ++ acc := by
  induction fuel with
  | zero => intro n acc; simp [natDigitsGo]
  | succ fuel ih =>
    intro n acc
    by_cases h : n < 10
    · simp [natDigitsGo, h]
    · simp only [natDigitsGo, if_neg h]
      rw [ih (n / 10) (Nat.digitChar (n % 10) :: acc),
        ih (n / 10) [Nat.digitChar (n % 10)], List.append_assoc]
      rfl

theorem digitChar_toNat_sub (d : Nat) (h : d < 10) :
    (Nat.digitChar d).toNat - 48 = d := by
  interval_cases d <;> decide

theorem digitsVal_natDigitsGo (fuel : Nat) :
    ∀ n : Nat, n < 10 ^ fuel → digitsVal (natDigitsGo fuel n []) = n := by
  induction fuel with
  | zero =>
    intro n hn
    interval_cases n
    simp [natDigitsGo, digitsVal]
  | succ fuel ih =>
    intro n hn
    by_cases h : n < 10
    · simp only [natDigitsGo, if_pos h, digitsVal, List.foldl_cons, List.foldl_nil]
      rw [digitChar_toNat_sub n h]; omega
    · have hdiv : n / 10 < 10 ^ fuel := by
        rw [Nat.div_lt_iff_lt_mul (by omega)]
        calc n < 10 ^ (fuel + 1) := hn
        _ = 10 ^ fuel * 10 := by ring
      simp only [natDigitsGo, if_neg h]
      rw [natDigitsGo_append fuel (n / 10) [Nat.digitChar (n % 10)]]
      unfold digitsVal
      rw [List.foldl_append]
      have hv := ih (n / 10) hdiv
      unfold digitsVal at hv
      rw [hv]
      simp only [List.foldl_cons, List.foldl_nil]
      rw [digitChar_toNat_sub (n % 10) (Nat.mod_lt n (by omega))]
      omega

theorem lt_ten_pow_succ (n : Nat) : n < 10 ^ (n + 1) := by
  calc n < 2 ^ n := Nat.lt_two_pow n
  _ ≤ 10 ^ n := Nat.pow_le_pow_left (by omega) n
  _ ≤ 10 ^ (n + 1) := Nat.pow_le_pow_right (by omega) (by omega)

theorem natToString_inj {m n : Nat} (h : natToString m = natToString n) : m = n := by
  have hd : natDigitsGo (m + 1) m [] = natDigitsGo (n + 1) n [] := by
    have := congrArg String.data h
    simpa [natToString] using this
  have hm := digitsVal_natDigitsGo (m + 1) m (lt_ten_pow_succ m)
  have hn := digitsVal_natDigitsGo (n + 1) n (lt_ten_pow_succ n)
  rw [← hm, ← hn, hd]

/-- Job id format of the source: a template string interpolating the algorithm
tag and the incremented counter around a dash. -/
def mkId (a : Option Algo) (c : Nat) : String :=
  algoNameOpt a ++ "-" ++ natToString c

theorem string_data_append (s t : String) : (s ++ t).data = s.data ++ t.data := by
  cases s; cases t; rfl

theorem mkId_data (a : Option Algo) (c : Nat) :
    (mkId a c).data = (algoNameOpt a).data ++ '-' :: natDigitsGo (c + 1) c [] := by
  unfold mkId
  rw [string_data_append, string_data_append]
  cases a with
  | none => rfl
  | some x => cases x <;> rfl

theorem dash_not_mem_algoName (a : Option Algo) : '-' ∉ (algoNameOpt a).data := by
  cases a with
  | none => decide
  | some x => cases x <;> decide

theorem append_cons_dash_inj :
    ∀ (u1 : List Char) (v1 u2 v2 : List Char), '-' ∉ u1 → '-' ∉ u2 →
      u1 ++ '-' :: v1 = u2 ++ '-' :: v2 → u1 = u2 ∧ v1 = v2 := by
  intro u1
  induction u1 with
  | nil =>
    intro v1 u2 v2 _ hu2 h
    cases u2 with
    | nil => simpa using h
    | cons y u2 =>
      simp only [List.nil_append, List.cons_append, List.cons.injEq] at h
      exact absurd (h.1 ▸ List.mem_cons_self y u2) (h.1 ▸ hu2)
  | cons x u1 ih =>
    intro v1 u2 v2 hu1 hu2 h
    cases u2 with
    | nil =>
      simp only [List.cons_append, List.nil_append, List.cons.injEq] at h
      exact absurd (h.1 ▸ List.mem_cons_self x u1) (by simp [h.1] at hu1 ⊢)
    | cons y u2 =>
      simp only [List.cons_append, List.cons.injEq] at h
      obtain ⟨hxy, htl⟩ := h
      have := ih v1 u2 v2 (fun hm => hu1 (List.mem_cons_of_mem x hm))
        (fun hm => hu2 (List.mem_cons_of_mem y hm)) htl
      exact ⟨by rw [hxy, this.1], this.2⟩

theorem mkId_counter_inj {a1 a2 : Option Algo} {c1 c2 : Nat}
    (h : mkId a1 c1 = mkId a2 c2) : c1 = c2 := by
  have hd := congrArg String.data h
  rw [mkId_data, mkId_data] at hd
  have := append_cons_dash_inj (algoNameOpt a1).data _ (algoNameOpt a2).data _
    (dash_not_mem_algoName a1) (dash_not_mem_algoName a2) hd
  have hs : natToString c1 = natToString c2 := congrArg String.mk this.2
  exact natToString_inj hs

/-! ### Backend model

The node RPC client is external; a `Backend` record fixes the outcome of each
RPC call the handlers may make during one message (`getBlockchainInfo`,
`getblocktemplate`, `submitblock`). -/

/-- Result object of `getBlockchainInfo`. -/
structure BlockchainInfo where
  blocks : Nat
  headers : Nat
  verificationprogress : ℚ
  deriving DecidableEq, Repr

/-- An RPC error object (`err.code`, `err.message`). -/
structure RpcErr where
  code : Int
  message : String
  deriving DecidableEq, Repr

/-- Block template fields read by `createMiningJob`. -/
structure Template where
  previousblockhash : String
  coinbasetxn : String
  version : Nat
  bits : String
  curtime : Nat
  progpow_header : String
  progpow_mix_hash : String
  merkle_root : String
  randomx_seed : String
  deriving DecidableEq, Repr

/-- Outcomes of the backend RPC calls available while handling one message.
`info = none` models a failed or empty `getBlockchainInfo`; `submitErr = none`
models a successful `submitblock`. -/
structure Backend where
  info : Option BlockchainInfo
  template : Except RpcErr Template
  submitErr : Option RpcErr
  deriving Repr

/-- Failure conditions raised on the job/submit paths. -/
inductive Err where
  | infoUnavailable
  | algoNotSpecified
  | notSynced (progress : ℚ)
  | nodeNotReady
  | rpc (e : RpcErr)
  | invalidAlgorithm
  deriving DecidableEq, Repr

/-- The `error.message` string placed into a reject response frame. -/
def Err.message : Err → String
  | .infoUnavailable => "No blockchain info received"
  | .algoNotSpecified => "Algorithm not specified"
  | .notSynced _ => "Node is not fully synced. Please wait for sync completion."
  | .nodeNotReady => "Node is not ready for mining. Please wait for sync completion."
  | .rpc e => e.message
  | .invalidAlgorithm => "Invalid algorithm"

/-- Result of `checkNodeStatus` (first variant): `isSynced` is the comparison
`verificationprogress > 0.999`. -/
structure NodeStatus where
  isSynced : Bool
  blocks : Nat
  headers : Nat
  verificationProgress : ℚ
  deriving DecidableEq, Repr

def checkNodeStatus (b : Backend) : Except Err NodeStatus :=
  match b.info with
  | none => .error .infoUnavailable
  | some info =>
    .ok { isSynced := decide (info.verificationprogress > mkRat 999 1000)
          blocks := info.blocks
          headers := info.headers
          verificationProgress := info.verificationprogress }

/-- A mining job record. The algorithm-specific fields added by the `switch`
in `createMiningJob` are `Option`-valued: `none` models an absent JS field. -/
structure Job where
  job_id : String
  algorithm : Option Algo
  prevhash : String
  coinbase : String
  version : Nat
  nbits : String
  ntime : Nat
  clean_jobs : Bool
  difficulty : ℚ
  progpow_header : Option String
  progpow_mix_hash : Option String
  merkle : Option String
  seed_hash : Option String
  deriving DecidableEq, Repr

/-- Process-wide mutable job state: the `jobCounter` and the `currentJobs`
map, the latter as an insertion-ordered association list. -/
structure JobState where
  jobCounter : Nat
  currentJobs : List (String × Job)
  deriving DecidableEq, Repr

/-- JS `Map.set`: overwrite in place when the key exists, else append. -/
def mapSet (m : List (String × Job)) (k : String) (v : Job) : List (String × Job) :=
  if m.any (fun p => p.1 == k) then
    m.map (fun p => if p.1 == k then (k, v) else p)
  else m ++ [(k, v)]

/-- The job object built from a template (common to both variants), including
the algorithm-specific `switch`. `ctr` is the already-incremented counter. -/
def mkJob (algo : Option Algo) (ctr : Nat) (t : Template) : Job :=
  let base : Job :=
    { job_id := mkId algo ctr
      algorithm := algo
      prevhash := t.previousblockhash
      coinbase := t.coinbasetxn
      version := t.version
      nbits := t.bits
      ntime := t.curtime
      clean_jobs := true
      difficulty := getDifficultyForAlgo algo
      progpow_header := none
      progpow_mix_hash := none
      merkle := none
      seed_hash := none }
  match algo with
  | some .progpow =>
    { base with progpow_header := some t.progpow_header
                progpow_mix_hash := some t.progpow_mix_hash }
  | some .sha256d => { base with merkle := some t.merkle_root }
  | some .randomx => { base with seed_hash := some t.randomx_seed }
  | none => base

/-- Char-list core of `strIncludes`: does the pattern occur at some position. -/
def charsInclude (pat : List Char) : List Char → Bool
  | [] => pat.isEmpty
  | c :: rest => pat.isPrefixOf (c :: rest) || charsInclude pat rest

/-- JS `String.prototype.includes`: substring containment test. -/
def strIncludes (s pat : String) : Bool :=
  charsInclude pat.data s.data

/-- First-variant `createMiningJob`: rejects a missing algorithm, then checks
node sync status (failing with `notSynced` carrying the progress), then
fetches a template — classifying a "not ready" RPC error — and finally mints
and registers the job. The pair's second component is the job state after the
call (unchanged on every failure path). -/
def createMiningJobV1 (algo : Option Algo) (b : Backend) (st : JobState) :
    Except Err Job × JobState :=
  match algo with
  | none => (.error .algoNotSpecified, st)
  | some _ =>
    match checkNodeStatus b with
    | .error e => (.error e, st)
    | .ok ns =>
      if ns.isSynced = false then
        (.error (.notSynced ns.verificationProgress), st)
      else
        match b.template with
        | .error e =>
          if e.code == -10 || strIncludes e.message "syncing"
              || strIncludes e.message "loading" then
            (.error .nodeNotReady, st)
          else (.error (.rpc e), st)
        | .ok t =>
          let ctr := st.jobCounter + 1
          let job := mkJob algo ctr t
          (.ok job, { jobCounter := ctr
                      currentJobs := mapSet st.currentJobs job.job_id job })

/-- Second-variant `createMiningJob`: no algorithm check and no sync check;
any template RPC error is rejected unclassified, otherwise the job is minted
and registered exactly as in the first variant. -/
def createMiningJobV2 (algo : Option Algo) (b : Backend) (st : JobState) :
    Except Err Job × JobState :=
  match b.template with
  | .error e => (.error (.rpc e), st)
  | .ok t =>
    let ctr := st.jobCounter + 1
    let job := mkJob algo ctr t
    (.ok job, { jobCounter := ctr
                currentJobs := mapSet st.currentJobs job.job_id job })

/-! ### Sessions, frames and messages -/

/-- Per-connection mutable state (the `client` object created in the
connection callback). The informational `connected` timestamp is wall-clock
data and is left out of the model. -/
structure Session where
  algorithm : Option Algo
  authorized : Bool
  wallet : Option String
  difficulty : Option ℚ
  extraNonce : Option (List Nat)
  deriving DecidableEq, Repr

/-- Fresh session of the first variant (lines 178-185): pre-authorized with a
fixed local wallet. -/
def initialSessionV1 : Session :=
  { algorithm := none, authorized := true, wallet := some "local_worker"
    difficulty := none, extraNonce := none }

/-- Fresh session of the second variant (lines 712-719): unauthorized, no wallet. -/
def initialSessionV2 : Session :=
  { algorithm := none, authorized := false, wallet := none
    difficulty := none, extraNonce := none }

/-- JSON-ish values carried in outbound frames. -/
inductive JVal where
  | str (s : String)
  | rat (q : ℚ)
  | nat (n : Nat)
  | bool (b : Bool)
  | null
  | arr (xs : List JVal)

/-- An optional string field serialized into a JSON array slot (JS `undefined`
serializes as `null` inside an array). -/
def jstr : Option String → JVal
  | some s => .str s
  | none => .null

/-- An optional numeric field serialized into a JSON slot. -/
def jnum : Option ℚ → JVal
  | some q => .rat q
  | none => .null

/-- Outbound line frames: a response `{id, result, error}` (with `id` a number
or `null`) or a server notification `{id: null, method, params}`. -/
inductive Frame where
  | response (id : Option Nat) (result : JVal) (error : JVal)
  | notification (method : String) (params : List JVal)

/-- Hex rendering of one byte, as `Buffer.toString('hex')` produces it. -/
def byteToHex (b : Nat) : String :=
  String.mk [Nat.digitChar (b / 16 % 16), Nat.digitChar (b % 16)]

/-- Hex rendering of a byte buffer. -/
def bytesToHex (bs : List Nat) : String :=
  String.join (bs.map byteToHex)

/-- JS template interpolation of a message id. -/
def idInterp : Option Nat → String
  | some n => natToString n
  | none => "null"

/-- JS string-or-default: `v || dflt` (the empty string is falsy). -/
def jsOr (v : Option String) (dflt : String) : String :=
  match v with
  | none => dflt
  | some s => if s = "" then dflt else s

/-- Inbound message `{id, method, params}` after JSON parsing; params are the
string arguments of the stratum methods, a missing position reads as
`undefined` (`none`). -/
structure Message where
  id : Option Nat
  method : String
  params : List String

/-- Transient submission value built by the `mining.submit` handlers. -/
structure Submission where
  algo : Option Algo
  worker : Option String
  jobId : Option String
  nonce : Option String
  header : Option String
  mixHash : Option String

/-- First-variant `submitWork` parameter shaping: `progpow` sends
`[header, mixHash, nonce]`, everything else falls to the default
`[header, nonce]`. -/
def submitWorkParamsV1 (s : Submission) : List (Option String) :=
  match s.algo with
  | some .progpow => [s.header, s.mixHash, s.nonce]
  | _ => [s.header, s.nonce]

/-- Second-variant `submitWork` parameter shaping: explicit cases per
algorithm, with an `Invalid algorithm` rejection (before any backend call)
when the session has no bound algorithm. -/
def submitWorkParamsV2 (s : Submission) : Except Err (List (Option String)) :=
  match s.algo with
  | some .progpow => .ok [s.header, s.mixHash, s.nonce]
  | some .sha256d => .ok [s.header, s.nonce]
  | some .randomx => .ok [s.header, s.nonce]
  | none => .error .invalidAlgorithm

/-- Result of handling one inbound message: the session and job state after
the handler, the frames the handler wrote to the socket itself (in order),
the response value it returned (written afterwards by the data callback when
not `none`), and the parameter lists of the `submitblock` calls it made. -/
structure HandlerResult where
  session : Session
  jobs : JobState
  writes : List Frame
  response : Option Frame
  submits : List (List (Option String))

/-- The `mining.notify` frame of the first variant's `sendMiningJob`. The
`coinbase1`, `coinbase2` and `merkle_branch` fields do not exist on the job
object, so the JS fallbacks always produce `""`, `""` and `[]`. -/
def sendMiningJobV1Frame (job : Job) : Frame :=
  .notification "mining.notify"
    [.str job.job_id, .str job.prevhash, .str "", .str "",
     .arr [], .nat job.version, .str job.nbits, .nat job.ntime, .bool true]

/-- The frames written by the second variant's `sendMiningJob`: nothing when
the session is not authorized (live sockets are assumed in the model),
otherwise one `mining.notify` whose tail is chosen by the session's
algorithm. -/
def sendMiningJobV2Frames (client : Session) (job : Job) : List Frame :=
  if client.authorized = false then []
  else
    let base := [JVal.str job.job_id, JVal.str job.prevhash,
      JVal.str job.coinbase, JVal.nat job.version, JVal.str job.nbits,
      JVal.nat job.ntime, JVal.bool true]
    let extra := match client.algorithm with
      | some .progpow => [jstr job.progpow_header, jstr job.progpow_mix_hash]
      | some .sha256d => [jstr job.merkle]
      | some .randomx => [jstr job.seed_hash]
      | none => []
    [.notification "mining.notify" (base ++ extra)]

/-- First-variant `handleStratumMethod` (lines 225-340). Subscribe ignores
the requested algorithm: it checks the constant `ALGORITHMS['progpow-veil']`
(always present, so the error branch is dead), force-binds `progpow`, writes
the difficulty notification and the subscribe result itself, then attempts an
initial job (failure only logged). Authorize writes an unconditional success
response and changes nothing. Submit never checks authorization. The
surrounding try/catch is unreachable in the model (no JS exceptions arise). -/
def handleStratumMethodV1 (client : Session) (msg : Message) (b : Backend)
    (st : JobState) : HandlerResult :=
  match msg.method with
  | "mining.subscribe" =>
    if (ALGORITHMS "progpow-veil").isNone then
      { session := client, jobs := st, writes := []
        response := some (.response msg.id .null (.str "Unsupported algorithm"))
        submits := [] }
    else
      let client2 := { client with
        algorithm := some Algo.progpow
        difficulty := some (getDifficultyForAlgo (some Algo.progpow))
        extraNonce := some (List.replicate EXTRA_NONCE_BYTES 0) }
      let setDiff := Frame.notification "mining.set_difficulty"
        [jnum client2.difficulty]
      let subResp := Frame.response msg.id
        (.arr [.arr [.arr [.str "mining.set_difficulty",
                           .str "b4b6693b72a50c7116db18d6497cac52"],
                     .arr [.str "mining.notify",
                           .str "ae6812eb4cd7735a302a8a9dd95cf71f"]],
               .str (bytesToHex (List.replicate EXTRA_NONCE_BYTES 0)),
               .nat EXTRA_NONCE_BYTES])
        .null
      match createMiningJobV1 client2.algorithm b st with
      | (.ok job, st2) =>
        { session := client2, jobs := st2
          writes := [setDiff, subResp, sendMiningJobV1Frame job]
          response := none, submits := [] }
      | (.error _, st2) =>
        { session := client2, jobs := st2, writes := [setDiff, subResp]
          response := none, submits := [] }
  | "mining.authorize" =>
    { session := client, jobs := st
      writes := [.response msg.id (.bool true) .null]
      response := none, submits := [] }
  | "mining.submit" =>
    let submission : Submission :=
      { algo := client.algorithm
        worker := some (jsOr (msg.params.get? 0) "local_worker")
        jobId := msg.params.get? 1
        nonce := msg.params.get? 2
        header := msg.params.get? 3
        mixHash := msg.params.get? 4 }
    let ps := submitWorkParamsV1 submission
    match b.submitErr with
    | none =>
      { session := client, jobs := st, writes := []
        response := some (.response msg.id (.bool true) .null)
        submits := [ps] }
    | some e =>
      { session := client, jobs := st, writes := []
        response := some (.response msg.id .null (.str e.message))
        submits := [ps] }
  | m =>
    { session := client, jobs := st, writes := []
      response := some (.response msg.id .null (.str ("Unknown method " ++ m)))
      submits := [] }

/-- Second-variant `handleStratumMethod` (lines 533-640). Subscribe validates
the requested algorithm against `ALGORITHMS` and binds it on success (no
rebind guard); its result carries the interpolated client id and the constant
string `'08'`. Authorize records the wallet, sets `authorized`, mints and
pushes an initial job, and returns a success response. Submit requires
authorization. The `switch` has no default case: an unknown method returns
`undefined`, so no frame is written at all. -/
def handleStratumMethodV2 (client : Session) (msg : Message) (b : Backend)
    (st : JobState) : HandlerResult :=
  match msg.method with
  | "mining.subscribe" =>
    let algoStr := msg.params.get? 0
    let clientId := msg.params.get? 1
    match algoStr with
    | none =>
      { session := client, jobs := st, writes := []
        response := some (.response msg.id .null (.str "Unsupported algorithm"))
        submits := [] }
    | some s =>
      match ALGORITHMS s with
      | none =>
        { session := client, jobs := st, writes := []
          response := some (.response msg.id .null (.str "Unsupported algorithm"))
          submits := [] }
      | some a =>
        let client2 := { client with
          algorithm := some a
          difficulty := some (getDifficultyForAlgo (some a)) }
        let setDiff := Frame.notification "mining.set_difficulty"
          [jnum client2.difficulty]
        let resp := Frame.response msg.id
          (.arr [.arr [.arr [.str "mining.set_difficulty", .str (idInterp msg.id)],
                       .arr [.str "mining.notify", .str (idInterp msg.id)]],
                 .str (match clientId with | some c => c | none => "undefined"),
                 .str "08"])
          .null
        { session := client2, jobs := st, writes := [setDiff]
          response := some resp, submits := [] }
  | "mining.authorize" =>
    let username := msg.params.get? 0
    let client2 := { client with authorized := true, wallet := username }
    match createMiningJobV2 client2.algorithm b st with
    | (.ok job, st2) =>
      { session := client2, jobs := st2
        writes := sendMiningJobV2Frames client2 job
        response := some (.response msg.id (.bool true) .null)
        submits := [] }
    | (.error _, st2) =>
      { session := client2, jobs := st2, writes := []
        response := some (.response msg.id (.bool true) .null)
        submits := [] }
  | "mining.submit" =>
    if client.authorized = false then
      { session := client, jobs := st, writes := []
        response := some (.response msg.id .null (.str "Unauthorized worker"))
        submits := [] }
    else
      let submission : Submission :=
        { algo := client.algorithm
          worker := msg.params.get? 0
          jobId := msg.params.get? 1
          nonce := msg.params.get? 2
          header := msg.params.get? 3
          mixHash := msg.params.get? 4 }
      match submitWorkParamsV2 submission with
      | .error e =>
        { session := client, jobs := st, writes := []
          response := some (.response msg.id .null (.str e.message))
          submits := [] }
      | .ok ps =>
        match b.submitErr with
        | none =>
          { session := client, jobs := st, writes := []
            response := some (.response msg.id (.bool true) .null)
            submits := [ps] }
        | some e =>
          { session := client, jobs := st, writes := []
            response := some (.response msg.id .null (.str e.message))
            submits := [ps] }
  | _ =>
    { session := client, jobs := st, writes := []
      response := none, submits := [] }

/-! ### Session traces and helper observations -/

/-- One data-callback step of the first variant: handle a message against the
backend outcomes current at that moment, keeping session and job state. -/
def stepV1 (s : Session × JobState) (mb : Message × Backend) :
    Session × JobState :=
  let r := handleStratumMethodV1 s.1 mb.1 mb.2 s.2
  (r.session, r.jobs)

/-- A first-variant connection's state after handling a list of inbound
messages, starting from a fresh session and empty job table. -/
def runV1 (trace : List (Message × Backend)) : Session × JobState :=
  trace.foldl stepV1 (initialSessionV1, { jobCounter := 0, currentJobs := [] })

/-- Did a `createMiningJob` call succeed. -/
def isOkE : Except Err Job → Bool
  | .ok _ => true
  | .error _ => false

def Frame.isNotify : Frame → Bool
  | .notification m _ => m == "mining.notify"
  | _ => false

/-- Number of `mining.notify` frames among a handler's socket writes. -/
def countNotify (ws : List Frame) : Nat :=
  (ws.filter Frame.isNotify).length

/-- String at position `n` of a response frame's result array, when present. -/
def Frame.resultEntryString (n : Nat) : Frame → Option String
  | .response _ (.arr xs) _ =>
    match xs.get? n with
    | some (.str s) => some s
    | _ => none
  | _ => none

/-- Modelled from the spec: a hex character, for the C7 wording "hex string". -/
def isHexChar (c : Char) : Bool :=
  c.isDigit || ('a' ≤ c && c ≤ 'f') || ('A' ≤ c && c ≤ 'F')

/-- Modelled from the spec: "a non-empty hex string of the configured
extra-nonce byte length" (two hex characters per byte). -/
def isHexStringOfBytes (nBytes : Nat) (s : String) : Bool :=
  s.length == 2 * nBytes && !(s.length == 0) && s.data.all isHexChar

/-- Well-formed job table: every registered id was minted by the id format at
some counter value not above the current counter. -/
def JobState.wf (st : JobState) : Prop :=
  ∀ p ∈ st.currentJobs, ∃ a c, c ≤ st.jobCounter ∧ p.1 = mkId a c

/-! ### Concrete fixtures for witnesses and counterexamples -/

def tGood : Template :=
  { previousblockhash := "prevhash", coinbasetxn := "coinbasetx"
    version := 536870912, bits := "1d00ffff", curtime := 1700000000
    progpow_header := "pp-header", progpow_mix_hash := "pp-mix"
    merkle_root := "merkle-root", randomx_seed := "rx-seed" }

/-- A fully synced and healthy backend. -/
def bGood : Backend :=
  { info := some { blocks := 100, headers := 100, verificationprogress := 1 }
    template := .ok tGood, submitErr := none }

/-- A backend at 50 percent verification progress whose template RPC works. -/
def bHalf : Backend :=
  { info := some { blocks := 50, headers := 100, verificationprogress := mkRat 1 2 }
    template := .ok tGood, submitErr := none }

def st0 : JobState := { jobCounter := 0, currentJobs := [] }

/-! ### Shared handler lemmas -/

theorem handleV1_authorized_eq (s : Session) (msg : Message) (b : Backend)
    (st : JobState) :
    (handleStratumMethodV1 s msg b st).session.authorized = s.authorized := by
  unfold handleStratumMethodV1
  split
  · split
    · rfl
    · dsimp only
      split <;> rfl
  · rfl
  · dsimp only
    split <;> rfl
  · rfl

theorem runV1_authorized (trace : List (Message × Backend)) :
    (runV1 trace).1.authorized = true := by
  unfold runV1
  have h : ∀ (tr : List (Message × Backend)) (s : Session × JobState),
      s.1.authorized = true → (tr.foldl stepV1 s).1.authorized = true := by
    intro tr
    induction tr with
    | nil => intro s hs; simpa using hs
    | cons mb tr ih =>
      intro s hs
      apply ih
      rw [stepV1, handleV1_authorized_eq]
      exact hs
  exact h _ _ rfl

/-! ### Claims -/

/-- Claim C10: a fresh first-variant session starts already authorized with
wallet `local_worker`, before any `mining.authorize` exchange, while a fresh
second-variant session starts unauthorized with no wallet. -/
theorem C10_initial_session_variants :
    initialSessionV1.authorized = true
      ∧ initialSessionV1.wallet = some "local_worker"
      ∧ initialSessionV2.authorized = false
      ∧ initialSessionV2.wallet = none :=
  ⟨rfl, rfl, rfl, rfl⟩

/-- Claim C1: in the second variant, a `mining.submit` from any session whose
`authorized` flag is false yields the `Unauthorized worker` error response,
makes no `submitblock` call, writes nothing else, and leaves the session
unchanged; in the first variant no session ever has `authorized = false` (the
flag starts true and no handler clears it), so no unauthorized submit can
occur there. -/
theorem C1_unauthorized_submit :
    (∀ (s : Session) (msg : Message) (b : Backend) (st : JobState),
      s.authorized = false → msg.method = "mining.submit" →
      (handleStratumMethodV2 s msg b st).response
          = some (.response msg.id .null (.str "Unauthorized worker"))
        ∧ (handleStratumMethodV2 s msg b st).submits = []
        ∧ (handleStratumMethodV2 s msg b st).writes = []
        ∧ (handleStratumMethodV2 s msg b st).session = s)
    ∧ (∀ trace : List (Message × Backend), (runV1 trace).1.authorized = true) := by
  constructor
  · intro s msg b st hauth hm
    obtain ⟨i, m, p⟩ := msg
    simp only at hm
    subst hm
    simp [handleStratumMethodV2, hauth]
  · exact runV1_authorized

/-- Witness for C1 at a concrete unauthorized session and submit message. -/
theorem C1_unauthorized_submit_witness :
    (handleStratumMethodV2 initialSessionV2
        { id := some 4, method := "mining.submit", params := ["w", "j", "n", "h", "x"] }
        bGood st0).response
      = some (.response (some 4) .null (.str "Unauthorized worker"))
    ∧ (handleStratumMethodV2 initialSessionV2
        { id := some 4, method := "mining.submit", params := ["w", "j", "n", "h", "x"] }
        bGood st0).submits = [] := by
  have h := C1_unauthorized_submit.1 initialSessionV2
    { id := some 4, method := "mining.submit", params := ["w", "j", "n", "h", "x"] }
    bGood st0 rfl rfl
  exact ⟨h.1, h.2.1⟩

/-- Claim C2 fails on the second variant: with backend sync progress `0.5`
and a working template RPC, its `createMiningJob` succeeds (no `NotSynced`
failure) and registers a job in the live-job table. -/
theorem C2_sync_check_counterexample :
    bHalf.info
        = some { blocks := 50, headers := 100, verificationprogress := 0.5 }
      ∧ isOkE (createMiningJobV2 (some .progpow) bHalf st0).1 = true
      ∧ (createMiningJobV2 (some .progpow) bHalf st0).2.currentJobs.length = 1 := by
  refine ⟨?_, rfl, rfl⟩
  norm_num [bHalf]

/-- Claim C2 as amended: only the first variant's `createMiningJob` checks
sync status — it fails with `notSynced` carrying the current progress
whenever verification progress is not greater than `0.999` and leaves the job
state untouched; the second variant's `createMiningJob` performs no sync
check at all and mints and registers a job whenever the template RPC
succeeds, regardless of progress. -/
theorem C2_sync_check_amended :
    (∀ (a : Algo) (b : Backend) (st : JobState) (info : BlockchainInfo),
      b.info = some info → info.verificationprogress ≤ 0.999 →
      (createMiningJobV1 (some a) b st).1
          = .error (.notSynced info.verificationprogress)
        ∧ (createMiningJobV1 (some a) b st).2 = st)
    ∧ (∀ (a : Option Algo) (b : Backend) (st : JobState) (t : Template),
      b.template = .ok t →
      (createMiningJobV2 a b st).1 = .ok (mkJob a (st.jobCounter + 1) t)
        ∧ (createMiningJobV2 a b st).2.jobCounter = st.jobCounter + 1) := by
  constructor
  · intro a b st info hinfo hprog
    have hsync : decide (info.verificationprogress > mkRat 999 1000) = false := by
      simp only [decide_eq_false_iff_not, not_lt]
      calc info.verificationprogress ≤ 0.999 := hprog
      _ = mkRat 999 1000 := by norm_num
    constructor <;> simp [createMiningJobV1, checkNodeStatus, hinfo, hsync]
  · intro a b st t ht
    constructor <;> simp [createMiningJobV2, ht]

/-- Witness for C2's amended statement: at progress `0.5` the first variant
fails with `notSynced 0.5` changing nothing, and on a synced backend the
second variant mints the job with the incremented counter. -/
theorem C2_sync_check_witness :
    ((createMiningJobV1 (some .progpow) bHalf st0).1
        = .error (.notSynced (mkRat 1 2))
      ∧ (createMiningJobV1 (some .progpow) bHalf st0).2 = st0)
    ∧ ((createMiningJobV2 (some .progpow) bGood st0).1
        = .ok (mkJob (some .progpow) (st0.jobCounter + 1) tGood)
      ∧ (createMiningJobV2 (some .progpow) bGood st0).2.jobCounter
          = st0.jobCounter + 1) := by
  constructor
  · exact C2_sync_check_amended.1 .progpow bHalf st0
      { blocks := 50, headers := 100, verificationprogress := mkRat 1 2 }
      rfl (by norm_num)
  · exact C2_sync_check_amended.2 (some .progpow) bGood st0 tGood rfl

/-! ### Job id lemmas for claim C3 -/

theorem mkJob_algorithm (a : Option Algo) (c : Nat) (t : Template) :
    (mkJob a c t).algorithm = a := by
  cases a with
  | none => rfl
  | some x => cases x <;> rfl

theorem mkJob_job_id (a : Option Algo) (c : Nat) (t : Template) :
    (mkJob a c t).job_id = mkId a c := by
  cases a with
  | none => rfl
  | some x => cases x <;> rfl

theorem wf_fresh (st : JobState) (hwf : st.wf) (a : Option Algo) :
    ∀ p ∈ st.currentJobs, p.1 ≠ mkId a (st.jobCounter + 1) := by
  intro p hp heq
  obtain ⟨a2, c, hc, hid⟩ := hwf p hp
  have h2 : mkId a2 c = mkId a (st.jobCounter + 1) := by rw [← hid, heq]
  have := mkId_counter_inj h2
  omega

theorem wf_after_mint (st : JobState) (hwf : st.wf) (a : Option Algo) (j : Job)
    (hj : j.job_id = mkId a (st.jobCounter + 1)) :
    JobState.wf { jobCounter := st.jobCounter + 1
                  currentJobs := mapSet st.currentJobs j.job_id j } := by
  have hfresh : st.currentJobs.any (fun p => p.1 == j.job_id) = false := by
    rw [List.any_eq_false]
    intro p hp
    simp only [beq_iff_eq]
    exact fun he => wf_fresh st hwf a p hp (by rw [← hj]; exact he)
  intro p hp
  simp only [mapSet, hfresh, Bool.false_eq_true, if_false, List.mem_append,
    List.mem_singleton] at hp
  cases hp with
  | inl hold =>
    obtain ⟨a2, c, hc, hid⟩ := hwf p hold
    refine ⟨a2, c, ?_, hid⟩
    show c ≤ st.jobCounter + 1
    omega
  | inr hnew =>
    refine ⟨a, st.jobCounter + 1, ?_, by rw [hnew, hj]⟩
    show st.jobCounter + 1 ≤ st.jobCounter + 1
    exact le_refl _

/-- Claim C3: in both variants a successful `createMiningJob A` returns a job
whose `algorithm` field is `A` and whose id embeds the incremented process-wide
counter; given a well-formed job table (every registered id minted at some
counter value at most the current one) the new id differs from every
previously issued id and well-formedness is preserved, and the counter never
decreases across any call, successful or not. -/
theorem C3_job_ids_monotonic :
    (∀ (a : Option Algo) (b : Backend) (st : JobState) (j : Job) (st2 : JobState),
      createMiningJobV1 a b st = (.ok j, st2) →
      j.algorithm = a ∧ j.job_id = mkId a (st.jobCounter + 1)
        ∧ st2.jobCounter = st.jobCounter + 1
        ∧ (st.wf → (∀ p ∈ st.currentJobs, p.1 ≠ j.job_id) ∧ st2.wf))
    ∧ (∀ (a : Option Algo) (b : Backend) (st : JobState) (j : Job) (st2 : JobState),
      createMiningJobV2 a b st = (.ok j, st2) →
      j.algorithm = a ∧ j.job_id = mkId a (st.jobCounter + 1)
        ∧ st2.jobCounter = st.jobCounter + 1
        ∧ (st.wf → (∀ p ∈ st.currentJobs, p.1 ≠ j.job_id) ∧ st2.wf))
    ∧ (∀ (a : Option Algo) (b : Backend) (st : JobState),
      st.jobCounter ≤ (createMiningJobV1 a b st).2.jobCounter
        ∧ st.jobCounter ≤ (createMiningJobV2 a b st).2.jobCounter) := by
  have hmint : ∀ (a : Option Algo) (st : JobState) (t : Template) (j : Job)
      (st2 : JobState),
      ((Except.ok (mkJob a (st.jobCounter + 1) t) : Except Err Job),
        ({ jobCounter := st.jobCounter + 1
           currentJobs := mapSet st.currentJobs
             (mkJob a (st.jobCounter + 1) t).job_id
             (mkJob a (st.jobCounter + 1) t) } : JobState)) = (.ok j, st2) →
      j.algorithm = a ∧ j.job_id = mkId a (st.jobCounter + 1)
        ∧ st2.jobCounter = st.jobCounter + 1
        ∧ (st.wf → (∀ p ∈ st.currentJobs, p.1 ≠ j.job_id) ∧ st2.wf) := by
    intro a st t j st2 h
    rw [Prod.mk.injEq] at h
    obtain ⟨h1, h2⟩ := h
    obtain rfl : mkJob a (st.jobCounter + 1) t = j := Except.ok.inj h1
    subst h2
    refine ⟨mkJob_algorithm a _ t, mkJob_job_id a _ t, rfl, ?_⟩
    intro hwf
    constructor
    · rw [mkJob_job_id]
      exact wf_fresh st hwf a
    · exact wf_after_mint st hwf a _ (mkJob_job_id a _ t)
  refine ⟨?_, ?_, ?_⟩
  · intro a b st j st2 h
    unfold createMiningJobV1 at h
    cases a with
    | none => simp at h
    | some x =>
      dsimp only at h
      split at h
      · simp at h
      · split at h
        · simp at h
        · split at h
          · split at h <;> simp at h
          · exact hmint (some x) st _ j st2 h
  · intro a b st j st2 h
    unfold createMiningJobV2 at h
    split at h
    · simp at h
    · exact hmint a st _ j st2 h
  · intro a b st
    constructor
    · unfold createMiningJobV1
      split
      · simp
      · split
        · simp
        · split
          · simp
          · split
            · split <;> simp
            · simp
    · unfold createMiningJobV2
      split
      · simp
      · simp

/-- Witness for C3 at the first successful call on a fresh state. -/
theorem C3_job_ids_witness :
    (mkJob (some .progpow) 1 tGood).algorithm = some .progpow
      ∧ (mkJob (some .progpow) 1 tGood).job_id
          = mkId (some .progpow) (st0.jobCounter + 1)
      ∧ ({ jobCounter := 1
           currentJobs := mapSet st0.currentJobs
             (mkJob (some .progpow) 1 tGood).job_id
             (mkJob (some .progpow) 1 tGood) } : JobState).jobCounter
          = st0.jobCounter + 1
      ∧ (∀ p ∈ st0.currentJobs, p.1 ≠ (mkJob (some .progpow) 1 tGood).job_id) := by
  have h := C3_job_ids_monotonic.1 (some .progpow) bGood st0
    (mkJob (some .progpow) 1 tGood)
    { jobCounter := 1
      currentJobs := mapSet st0.currentJobs
        (mkJob (some .progpow) 1 tGood).job_id
        (mkJob (some .progpow) 1 tGood) }
    rfl
  have hwf : st0.wf := by intro p hp; simp [st0] at hp
  exact ⟨h.1, h.2.1, h.2.2.1, (h.2.2.2 hwf).1⟩

/-- Claim C4: in both variants, an authorized submit on a session bound to
`progpow` forwards exactly one `submitblock` call with parameters
`(header, mixHash, nonce)` in that order, and on a session bound to any other
supported algorithm exactly one call with `(header, nonce)`. -/
theorem C4_submit_param_order :
    ∀ (s : Session) (msg : Message) (b : Backend) (st : JobState)
      (a : Algo) (w jb nc hd mx : String),
      s.algorithm = some a → s.authorized = true →
      msg.method = "mining.submit" → msg.params = [w, jb, nc, hd, mx] →
      (a = .progpow →
        (handleStratumMethodV1 s msg b st).submits = [[some hd, some mx, some nc]]
          ∧ (handleStratumMethodV2 s msg b st).submits
              = [[some hd, some mx, some nc]])
      ∧ ((a = .sha256d ∨ a = .randomx) →
        (handleStratumMethodV1 s msg b st).submits = [[some hd, some nc]]
          ∧ (handleStratumMethodV2 s msg b st).submits = [[some hd, some nc]]) := by
  intro s msg b st a w jb nc hd mx halgo hauth hmethod hparams
  obtain ⟨i, m, p⟩ := msg
  simp only at hmethod hparams
  subst hmethod
  subst hparams
  constructor
  · rintro rfl
    cases hsub : b.submitErr <;>
      constructor <;>
        simp [handleStratumMethodV1, handleStratumMethodV2, halgo, hauth, hsub,
          submitWorkParamsV1, submitWorkParamsV2]
  · rintro (rfl | rfl) <;>
      cases hsub : b.submitErr <;>
        constructor <;>
          simp [handleStratumMethodV1, handleStratumMethodV2, halgo, hauth, hsub,
            submitWorkParamsV1, submitWorkParamsV2]

/-- Witness for C4 on concrete progpow and sha256d sessions. -/
theorem C4_submit_param_order_witness :
    ((handleStratumMethodV1
        { algorithm := some .progpow, authorized := true, wallet := some "w"
          difficulty := some (mkRat 2 1000), extraNonce := none }
        { id := some 7, method := "mining.submit", params := ["w", "j", "n", "h", "x"] }
        bGood st0).submits = [[some "h", some "x", some "n"]]
      ∧ (handleStratumMethodV2
        { algorithm := some .progpow, authorized := true, wallet := some "w"
          difficulty := some (mkRat 2 1000), extraNonce := none }
        { id := some 7, method := "mining.submit", params := ["w", "j", "n", "h", "x"] }
        bGood st0).submits = [[some "h", some "x", some "n"]])
    ∧ ((handleStratumMethodV1
        { algorithm := some .sha256d, authorized := true, wallet := some "w"
          difficulty := some (mkRat 1 100), extraNonce := none }
        { id := some 7, method := "mining.submit", params := ["w", "j", "n", "h", "x"] }
        bGood st0).submits = [[some "h", some "n"]]
      ∧ (handleStratumMethodV2
        { algorithm := some .sha256d, authorized := true, wallet := some "w"
          difficulty := some (mkRat 1 100), extraNonce := none }
        { id := some 7, method := "mining.submit", params := ["w", "j", "n", "h", "x"] }
        bGood st0).submits = [[some "h", some "n"]]) := by
  constructor
  · exact (C4_submit_param_order
      { algorithm := some .progpow, authorized := true, wallet := some "w"
        difficulty := some (mkRat 2 1000), extraNonce := none }
      { id := some 7, method := "mining.submit", params := ["w", "j", "n", "h", "x"] }
      bGood st0 .progpow "w" "j" "n" "h" "x" rfl rfl rfl rfl).1 rfl
  · exact (C4_submit_param_order
      { algorithm := some .sha256d, authorized := true, wallet := some "w"
        difficulty := some (mkRat 1 100), extraNonce := none }
      { id := some 7, method := "mining.submit", params := ["w", "j", "n", "h", "x"] }
      bGood st0 .sha256d "w" "j" "n" "h" "x" rfl rfl rfl rfl).2 (Or.inl rfl)

/-- Claim C5 fails on the first variant: a `mining.subscribe` whose requested
algorithm is not in the supported set is not rejected — the handler never
inspects the request, binds `progpow` to the session, and returns no error
response at all (the success frames are written directly). -/
theorem C5_subscribe_validation_counterexample :
    ALGORITHMS "not-an-algo" = none
      ∧ (handleStratumMethodV1 initialSessionV1
          { id := some 1, method := "mining.subscribe", params := ["not-an-algo"] }
          bGood st0).session.algorithm = some .progpow
      ∧ (handleStratumMethodV1 initialSessionV1
          { id := some 1, method := "mining.subscribe", params := ["not-an-algo"] }
          bGood st0).response = none :=
  ⟨rfl, rfl, rfl⟩

/-- Claim C5 as amended: the second variant validates the requested algorithm
against the supported set and answers an unsupported request with the
`Unsupported algorithm` error, leaving the session unchanged and writing no
frame; the first variant never validates the requested algorithm — every
subscribe binds `progpow` to the session and returns no error value. -/
theorem C5_subscribe_validation_amended :
    (∀ (s : Session) (msg : Message) (b : Backend) (st : JobState) (name : String),
      msg.method = "mining.subscribe" → msg.params.get? 0 = some name →
      ALGORITHMS name = none →
      (handleStratumMethodV2 s msg b st).response
          = some (.response msg.id .null (.str "Unsupported algorithm"))
        ∧ (handleStratumMethodV2 s msg b st).session = s
        ∧ (handleStratumMethodV2 s msg b st).writes = [])
    ∧ (∀ (s : Session) (msg : Message) (b : Backend) (st : JobState),
      msg.method = "mining.subscribe" →
      (handleStratumMethodV1 s msg b st).session.algorithm = some .progpow
        ∧ (handleStratumMethodV1 s msg b st).response = none) := by
  constructor
  · intro s msg b st name hmethod hget halg
    obtain ⟨i, m, p⟩ := msg
    simp only at hmethod hget
    subst hmethod
    rw [List.get?_eq_getElem?] at hget
    simp [handleStratumMethodV2, hget, halg]
  · intro s msg b st hmethod
    obtain ⟨i, m, p⟩ := msg
    simp only at hmethod
    subst hmethod
    constructor <;>
      · simp only [handleStratumMethodV1]
        split
        · next hdead => exact absurd hdead (by decide)
        · try dsimp only
          split <;> rfl

/-- Witness for C5's amended statement at concrete subscribe messages. -/
theorem C5_subscribe_validation_witness :
    ((handleStratumMethodV2 initialSessionV2
        { id := some 1, method := "mining.subscribe", params := ["not-an-algo"] }
        bGood st0).response
      = some (.response (some 1) .null (.str "Unsupported algorithm"))
      ∧ (handleStratumMethodV2 initialSessionV2
          { id := some 1, method := "mining.subscribe", params := ["not-an-algo"] }
          bGood st0).session = initialSessionV2)
    ∧ (handleStratumMethodV1 initialSessionV1
        { id := some 1, method := "mining.subscribe", params := ["progpow-veil"] }
        bGood st0).session.algorithm = some .progpow := by
  constructor
  · have h := C5_subscribe_validation_amended.1 initialSessionV2
      { id := some 1, method := "mining.subscribe", params := ["not-an-algo"] }
      bGood st0 "not-an-algo" rfl rfl rfl
    exact ⟨h.1, h.2.1⟩
  · exact (C5_subscribe_validation_amended.2 initialSessionV1
      { id := some 1, method := "mining.subscribe", params := ["progpow-veil"] }
      bGood st0 rfl).1

/-- Claim C6 fails on the second variant: after a first successful subscribe
binds `progpow`, a second subscribe requesting `sha256d` rebinds the session's
algorithm to a different value. -/
theorem C6_algorithm_rebind_counterexample :
    (handleStratumMethodV2 initialSessionV2
        { id := some 1, method := "mining.subscribe", params := ["progpow-veil", "c"] }
        bGood st0).session.algorithm = some .progpow
      ∧ (handleStratumMethodV2
          (handleStratumMethodV2 initialSessionV2
            { id := some 1, method := "mining.subscribe", params := ["progpow-veil", "c"] }
            bGood st0).session
          { id := some 2, method := "mining.subscribe", params := ["sha256d", "c"] }
          bGood st0).session.algorithm = some .sha256d
      ∧ some Algo.sha256d ≠ some Algo.progpow :=
  ⟨rfl, rfl, by decide⟩

/-- Claim C6 as amended: messages other than `mining.subscribe` (authorize,
submit, unknown) never change a session's algorithm in either variant; in the
first variant every subscribe sets the algorithm to `progpow`, so after a
first subscribe the value never changes; in the second variant a later
successful subscribe rebinds the session's algorithm to whatever supported
algorithm is requested, so the field is not immutable there. -/
theorem C6_algorithm_binding_amended :
    (∀ (s : Session) (msg : Message) (b : Backend) (st : JobState),
      msg.method ≠ "mining.subscribe" →
      (handleStratumMethodV1 s msg b st).session.algorithm = s.algorithm
        ∧ (handleStratumMethodV2 s msg b st).session.algorithm = s.algorithm)
    ∧ (∀ (s : Session) (msg : Message) (b : Backend) (st : JobState),
      msg.method = "mining.subscribe" →
      (handleStratumMethodV1 s msg b st).session.algorithm = some .progpow)
    ∧ (∀ (s : Session) (msg : Message) (b : Backend) (st : JobState)
        (name : String) (a : Algo),
      msg.method = "mining.subscribe" → msg.params.get? 0 = some name →
      ALGORITHMS name = some a →
      (handleStratumMethodV2 s msg b st).session.algorithm = some a) := by
  refine ⟨?_, ?_, ?_⟩
  · intro s msg b st hne
    obtain ⟨i, m, p⟩ := msg
    simp only at hne
    constructor
    · simp only [handleStratumMethodV1]
      split
      · exact absurd rfl hne
      · rfl
      · try dsimp only
        split <;> rfl
      · rfl
    · simp only [handleStratumMethodV2]
      split
      · exact absurd rfl hne
      · try dsimp only
        split <;> rfl
      · try dsimp only
        split
        · rfl
        · split
          · rfl
          · split <;> rfl
      · rfl
  · intro s msg b st hmethod
    obtain ⟨i, m, p⟩ := msg
    simp only at hmethod
    subst hmethod
    simp only [handleStratumMethodV1]
    split
    · next hdead => exact absurd hdead (by decide)
    · try dsimp only
      split <;> rfl
  · intro s msg b st name a hmethod hget halg
    obtain ⟨i, m, p⟩ := msg
    simp only at hmethod hget
    subst hmethod
    rw [List.get?_eq_getElem?] at hget
    simp [handleStratumMethodV2, hget, halg]

/-- Witness for C6's amended statement: an authorize call preserves a bound
`progpow` algorithm in both variants, a first-variant subscribe binds
`progpow`, and a second-variant subscribe for `sha256d` binds `sha256d`. -/
theorem C6_algorithm_binding_witness :
    ((handleStratumMethodV1
        { algorithm := some .progpow, authorized := true, wallet := some "w"
          difficulty := some (mkRat 2 1000), extraNonce := none }
        { id := some 3, method := "mining.authorize", params := ["u", "p"] }
        bGood st0).session.algorithm = some Algo.progpow
      ∧ (handleStratumMethodV2
        { algorithm := some .progpow, authorized := true, wallet := some "w"
          difficulty := some (mkRat 2 1000), extraNonce := none }
        { id := some 3, method := "mining.authorize", params := ["u", "p"] }
        bGood st0).session.algorithm = some Algo.progpow)
    ∧ (handleStratumMethodV1 initialSessionV1
        { id := some 1, method := "mining.subscribe", params := ["progpow-veil"] }
        bGood st0).session.algorithm = some Algo.progpow
    ∧ (handleStratumMethodV2 initialSessionV2
        { id := some 1, method := "mining.subscribe", params := ["sha256d"] }
        bGood st0).session.algorithm = some Algo.sha256d := by
  refine ⟨?_, ?_, ?_⟩
  · exact C6_algorithm_binding_amended.1
      { algorithm := some .progpow, authorized := true, wallet := some "w"
        difficulty := some (mkRat 2 1000), extraNonce := none }
      { id := some 3, method := "mining.authorize", params := ["u", "p"] }
      bGood st0 (by decide)
  · exact C6_algorithm_binding_amended.2.1 initialSessionV1
      { id := some 1, method := "mining.subscribe", params := ["progpow-veil"] }
      bGood st0 rfl
  · exact C6_algorithm_binding_amended.2.2 initialSessionV2
      { id := some 1, method := "mining.subscribe", params := ["sha256d"] }
      bGood st0 "sha256d" .sha256d rfl rfl rfl

/-- Claim C7 fails on the second variant: subscribing with
`["progpow-veil"]` yields a result frame whose extra-nonce entry is the
string interpolation of the absent client id, `"undefined"`, which is not a
hex string of the configured extra-nonce byte length. -/
theorem C7_subscribe_frames_counterexample :
    ((handleStratumMethodV2 initialSessionV2
        { id := some 1, method := "mining.subscribe", params := ["progpow-veil"] }
        bGood st0).response.map (Frame.resultEntryString 1))
      = some (some "undefined")
    ∧ isHexStringOfBytes EXTRA_NONCE_BYTES "undefined" = false :=
  ⟨rfl, rfl⟩

/-- Claim C7 as amended: on `mining.subscribe ["progpow-veil"]` both variants
first emit a `mining.set_difficulty` notification carrying 0.002; the first
variant then writes the subscribe result whose extra-nonce entry is the
non-empty 4-byte hex string "00000000" of the configured length, while the
second variant returns a result whose corresponding entry is the
interpolation of the absent client id ("undefined") and whose length entry is
the constant string "08". -/
theorem C7_subscribe_frames_amended :
    (mkRat 2 1000 : ℚ) = 0.002
    ∧ isHexStringOfBytes EXTRA_NONCE_BYTES "00000000" = true
    ∧ (∀ (s : Session) (msg : Message) (b : Backend) (st : JobState),
      msg.method = "mining.subscribe" →
      (handleStratumMethodV1 s msg b st).writes.take 2
        = [Frame.notification "mining.set_difficulty" [.rat (mkRat 2 1000)],
           Frame.response msg.id
             (.arr [.arr [.arr [.str "mining.set_difficulty",
                                .str "b4b6693b72a50c7116db18d6497cac52"],
                          .arr [.str "mining.notify",
                                .str "ae6812eb4cd7735a302a8a9dd95cf71f"]],
                    .str "00000000", .nat EXTRA_NONCE_BYTES])
             .null])
    ∧ (∀ (s : Session) (msg : Message) (b : Backend) (st : JobState),
      msg.method = "mining.subscribe" → msg.params = ["progpow-veil"] →
      (handleStratumMethodV2 s msg b st).writes
        = [Frame.notification "mining.set_difficulty" [.rat (mkRat 2 1000)]]
      ∧ (handleStratumMethodV2 s msg b st).response
        = some (Frame.response msg.id
            (.arr [.arr [.arr [.str "mining.set_difficulty", .str (idInterp msg.id)],
                         .arr [.str "mining.notify", .str (idInterp msg.id)]],
                   .str "undefined", .str "08"])
            .null)) := by
  refine ⟨by norm_num, rfl, ?_, ?_⟩
  · intro s msg b st hmethod
    obtain ⟨i, m, p⟩ := msg
    simp only at hmethod
    subst hmethod
    simp only [handleStratumMethodV1]
    split
    · next hdead => exact absurd hdead (by decide)
    · try dsimp only
      split <;> rfl
  · intro s msg b st hmethod hparams
    obtain ⟨i, m, p⟩ := msg
    simp only at hmethod hparams
    subst hmethod
    subst hparams
    exact ⟨rfl, rfl⟩

/-- Witness for C7's amended statement at the concrete subscribe message of
the claim's scenario. -/
theorem C7_subscribe_frames_witness :
    (handleStratumMethodV1 initialSessionV1
        { id := some 1, method := "mining.subscribe", params := ["progpow-veil"] }
        bGood st0).writes.take 2
      = [Frame.notification "mining.set_difficulty" [.rat (mkRat 2 1000)],
         Frame.response (some 1)
           (.arr [.arr [.arr [.str "mining.set_difficulty",
                              .str "b4b6693b72a50c7116db18d6497cac52"],
                        .arr [.str "mining.notify",
                              .str "ae6812eb4cd7735a302a8a9dd95cf71f"]],
                  .str "00000000", .nat EXTRA_NONCE_BYTES])
           .null]
    ∧ (handleStratumMethodV2 initialSessionV2
        { id := some 1, method := "mining.subscribe", params := ["progpow-veil"] }
        bGood st0).writes
      = [Frame.notification "mining.set_difficulty" [.rat (mkRat 2 1000)]] := by
  constructor
  · exact C7_subscribe_frames_amended.2.2.1 initialSessionV1
      { id := some 1, method := "mining.subscribe", params := ["progpow-veil"] }
      bGood st0 rfl
  · exact (C7_subscribe_frames_amended.2.2.2 initialSessionV2
      { id := some 1, method := "mining.subscribe", params := ["progpow-veil"] }
      bGood st0 rfl rfl).1

/-- Claim C8 fails on the first variant: `mining.authorize` with a two-element
params array leaves the wallet at its initial `local_worker` value instead of
recording the supplied identity, and pushes no `mining.notify` frame even on a
fully synced backend — the only write is the `true` response. -/
theorem C8_authorize_counterexample :
    (handleStratumMethodV1 initialSessionV1
        { id := some 3, method := "mining.authorize", params := ["worker1", "pass"] }
        bGood st0).session.wallet = some "local_worker"
    ∧ some "local_worker" ≠ some "worker1"
    ∧ countNotify (handleStratumMethodV1 initialSessionV1
        { id := some 3, method := "mining.authorize", params := ["worker1", "pass"] }
        bGood st0).writes = 0
    ∧ (handleStratumMethodV1 initialSessionV1
        { id := some 3, method := "mining.authorize", params := ["worker1", "pass"] }
        bGood st0).writes = [.response (some 3) (.bool true) .null] :=
  ⟨rfl, by decide, rfl, rfl⟩

theorem countNotify_sendV2 (c : Session) (j : Job) (h : c.authorized = true) :
    countNotify (sendMiningJobV2Frames c j) = 1 := by
  simp only [sendMiningJobV2Frames, h]
  simp [countNotify, Frame.isNotify]

/-- Claim C8 as amended: in the second variant, authorize with params
`[u, pw]` records `u` as the wallet, sets `authorized`, returns the
`{id, result: true, error: null}` response, and — whenever the template fetch
succeeds (the handler performs no sync check) — writes exactly one
`mining.notify` frame; in the first variant, authorize only writes that same
response frame and changes nothing: no wallet recording and no job push. -/
theorem C8_authorize_amended :
    (∀ (s : Session) (msg : Message) (b : Backend) (st : JobState) (u pw : String),
      msg.method = "mining.authorize" → msg.params = [u, pw] →
      (handleStratumMethodV2 s msg b st).session.wallet = some u
        ∧ (handleStratumMethodV2 s msg b st).session.authorized = true
        ∧ (handleStratumMethodV2 s msg b st).response
            = some (.response msg.id (.bool true) .null)
        ∧ (∀ t : Template, b.template = .ok t →
            countNotify (handleStratumMethodV2 s msg b st).writes = 1))
    ∧ (∀ (s : Session) (msg : Message) (b : Backend) (st : JobState),
      msg.method = "mining.authorize" →
      (handleStratumMethodV1 s msg b st).session = s
        ∧ (handleStratumMethodV1 s msg b st).writes
            = [.response msg.id (.bool true) .null]
        ∧ (handleStratumMethodV1 s msg b st).response = none) := by
  constructor
  · intro s msg b st u pw hmethod hparams
    obtain ⟨i, m, p⟩ := msg
    simp only at hmethod hparams
    subst hmethod
    subst hparams
    refine ⟨?_, ?_, ?_, ?_⟩
    · simp only [handleStratumMethodV2]
      try dsimp only
      split <;> rfl
    · simp only [handleStratumMethodV2]
      try dsimp only
      split <;> rfl
    · simp only [handleStratumMethodV2]
      try dsimp only
      split <;> rfl
    · intro t ht
      simp only [handleStratumMethodV2]
      try dsimp only
      have hc : createMiningJobV2 s.algorithm b st
          = (.ok (mkJob s.algorithm (st.jobCounter + 1) t),
             { jobCounter := st.jobCounter + 1
               currentJobs := mapSet st.currentJobs
                 (mkJob s.algorithm (st.jobCounter + 1) t).job_id
                 (mkJob s.algorithm (st.jobCounter + 1) t) }) := by
        simp [createMiningJobV2, ht]
      rw [hc]
      try dsimp only
      apply countNotify_sendV2
      rfl
  · intro s msg b st hmethod
    obtain ⟨i, m, p⟩ := msg
    simp only at hmethod
    subst hmethod
    exact ⟨rfl, rfl, rfl⟩

/-- Witness for C8's amended statement at a concrete authorize exchange. -/
theorem C8_authorize_witness :
    ((handleStratumMethodV2 initialSessionV2
        { id := some 3, method := "mining.authorize", params := ["worker1", "pass"] }
        bGood st0).session.wallet = some "worker1"
      ∧ (handleStratumMethodV2 initialSessionV2
          { id := some 3, method := "mining.authorize", params := ["worker1", "pass"] }
          bGood st0).session.authorized = true
      ∧ countNotify (handleStratumMethodV2 initialSessionV2
          { id := some 3, method := "mining.authorize", params := ["worker1", "pass"] }
          bGood st0).writes = 1)
    ∧ (handleStratumMethodV1 initialSessionV1
        { id := some 3, method := "mining.authorize", params := ["worker1", "pass"] }
        bGood st0).writes = [.response (some 3) (.bool true) .null] := by
  constructor
  · have h := C8_authorize_amended.1 initialSessionV2
      { id := some 3, method := "mining.authorize", params := ["worker1", "pass"] }
      bGood st0 "worker1" "pass" rfl rfl
    exact ⟨h.1, h.2.1, h.2.2.2 tGood rfl⟩
  · exact (C8_authorize_amended.2 initialSessionV1
      { id := some 3, method := "mining.authorize", params := ["worker1", "pass"] }
      bGood st0 rfl).2.1

/-- Claim C9 fails on the second variant: its method `switch` has no default
case, so an unknown method produces no response frame at all — there is no
explicit unknown-method error response (session state is indeed unchanged). -/
theorem C9_unknown_method_counterexample :
    (handleStratumMethodV2 initialSessionV2
        { id := some 9, method := "mining.foo", params := [] }
        bGood st0).response = none
    ∧ (handleStratumMethodV2 initialSessionV2
        { id := some 9, method := "mining.foo", params := [] }
        bGood st0).writes = []
    ∧ (handleStratumMethodV2 initialSessionV2
        { id := some 9, method := "mining.foo", params := [] }
        bGood st0).session = initialSessionV2 :=
  ⟨rfl, rfl, rfl⟩

/-- Claim C9 as amended: for a method outside the supported set, the first
variant returns the explicit `Unknown method <m>` error response and changes
nothing, while the second variant falls through its `switch` and returns no
frame at all — also changing nothing. -/
theorem C9_unknown_method_amended :
    ∀ (s : Session) (msg : Message) (b : Backend) (st : JobState),
      msg.method ≠ "mining.subscribe" → msg.method ≠ "mining.authorize" →
      msg.method ≠ "mining.submit" →
      ((handleStratumMethodV1 s msg b st).response
          = some (.response msg.id .null
              (.str ("Unknown method " ++ msg.method)))
        ∧ (handleStratumMethodV1 s msg b st).session = s
        ∧ (handleStratumMethodV1 s msg b st).jobs = st
        ∧ (handleStratumMethodV1 s msg b st).writes = []
        ∧ (handleStratumMethodV1 s msg b st).submits = [])
      ∧ ((handleStratumMethodV2 s msg b st).response = none
        ∧ (handleStratumMethodV2 s msg b st).session = s
        ∧ (handleStratumMethodV2 s msg b st).jobs = st
        ∧ (handleStratumMethodV2 s msg b st).writes = []
        ∧ (handleStratumMethodV2 s msg b st).submits = []) := by
  intro s msg b st h1 h2 h3
  obtain ⟨i, m, p⟩ := msg
  simp only at h1 h2 h3
  constructor
  · simp only [handleStratumMethodV1]
    exact ⟨trivial, trivial, trivial, trivial, trivial⟩
  · simp only [handleStratumMethodV2]
    exact ⟨trivial, trivial, trivial, trivial, trivial⟩

/-- Witness for C9's amended statement at a concrete unknown method. -/
theorem C9_unknown_method_witness :
    (handleStratumMethodV1 initialSessionV1
        { id := some 9, method := "mining.foo", params := [] }
        bGood st0).response
      = some (.response (some 9) .null (.str ("Unknown method " ++ "mining.foo")))
    ∧ (handleStratumMethodV2 initialSessionV2
        { id := some 9, method := "mining.foo", params := [] }
        bGood st0).response = none := by
  have h := C9_unknown_method_amended initialSessionV1
    { id := some 9, method := "mining.foo", params := [] }
    bGood st0 (by decide) (by decide) (by decide)
  have h2 := C9_unknown_method_amended initialSessionV2
    { id := some 9, method := "mining.foo", params := [] }
    bGood st0 (by decide) (by decide) (by decide)
  exact ⟨h.1.1, h2.2.1⟩

end StratumProxy
